import Mathlib

/-!
Shallow embedding of `src/main.py`: a minimal FastAPI service with an
in-memory item store, request-id middleware, Prometheus-style metrics and
one structured JSON log line per request.  Pure Python functions become
Lean functions; the mutable store, the metrics registry and the log stream
become explicit state passed through the operations; the nondeterministic
inputs (the random 128-bit value behind `uuid.uuid4()` and the measured
latency) become explicit parameters.
-/

set_option maxHeartbeats 1000000

/-- Mirrors the pydantic model `ItemOut(ItemIn)`: fields `name` (inherited
from `ItemIn`) and `id`.  Python integers here are non-negative (ids start
at 1 and only grow by 1), so `Nat` is a faithful carrier. -/
structure ItemOut where
  name : String
  id : Nat
deriving DecidableEq

/-- Mirrors the pydantic request model `ItemIn` (a single required string
field `name`, no further constraints). -/
structure ItemIn where
  name : String
deriving DecidableEq

/-- Mirrors `InMemoryStore.__init__`/its two attributes: the ordered item
list `_items` and the `_next_id` counter. -/
structure InMemoryStore where
  _items : List ItemOut
  _next_id : Nat
deriving DecidableEq

/-- Mirrors `InMemoryStore()` as constructed at import time
(`store = InMemoryStore()`): empty list, counter 1. -/
def InMemoryStore.init : InMemoryStore := ⟨[], 1⟩

/-- Mirrors `InMemoryStore.list_items`: returns the item list, no mutation. -/
def InMemoryStore.list_items (s : InMemoryStore) : List ItemOut := s._items

/-- Mirrors `InMemoryStore.add_item`: builds `ItemOut(id=self._next_id,
name=name)`, appends it, increments the counter, returns the new item
(paired here with the updated store, since state is explicit). -/
def InMemoryStore.add_item (s : InMemoryStore) (name : String) :
    ItemOut × InMemoryStore :=
  let item : ItemOut := { name := name, id := s._next_id }
  (item, { _items := s._items ++ [item], _next_id := s._next_id + 1 })

/-- JSON values, for the response bodies the handlers build. -/
inductive Json where
  | str (s : String)
  | int (n : Int)
  | arr (xs : List Json)
  | obj (fields : List (String × Json))

/-- Mirrors `item.model_dump()` on `ItemOut`: field order `name` then `id`
(pydantic lists base-class fields first). -/
def itemJson (it : ItemOut) : Json :=
  .obj [("name", .str it.name), ("id", .int it.id)]

/-- One entry of FastAPI/pydantic field-level validation detail (the
`detail` array of a 422 body): location, message, error type. -/
structure ValidationErrorDetail where
  loc : List String
  msg : String
  type : String
deriving DecidableEq

/-- Mirrors pydantic validation of `ItemIn` on the request body: the body
is modelled as an optional `name` string.  A missing `name` fails with the
standard field-level detail; any present string (including the empty
string: `name: str` carries no length constraint) validates. -/
def ItemIn.validate (name : Option String) :
    Except (List ValidationErrorDetail) ItemIn :=
  match name with
  | none => .error [{ loc := ["body", "name"], msg := "Field required", type := "missing" }]
  | some s => .ok { name := s }

/-- HTTP response as far as the embedded app observes it: status code,
header list, JSON body. -/
structure Response where
  status_code : Nat
  headers : List (String × String)
  body : Json

/-- Mirrors the FastAPI `GET /items` handler `list_items`: items from the
store in order, their count, the request id; status 200. -/
def GET_items (rid : String) (st : InMemoryStore) : Response :=
  let items := st.list_items.map itemJson
  { status_code := 200
    headers := []
    body := .obj [("items", .arr items), ("count", .int items.length),
                  ("request_id", .str rid)] }

/-- Mirrors FastAPI's handling of `POST /items` (`create_item` plus the
framework's body validation): an invalid body short-circuits to 422 with
the validation detail and the handler never runs; a valid body reaches
`create_item`, which adds the item and answers 201. -/
def POST_items (name : Option String) (rid : String) (st : InMemoryStore) :
    Response × InMemoryStore :=
  match ItemIn.validate name with
  | .error errs =>
      ({ status_code := 422
         headers := []
         body := .obj [("detail", .arr (errs.map fun e =>
           .obj [("type", .str e.type),
                 ("loc", .arr (e.loc.map .str)),
                 ("msg", .str e.msg)]))] }, st)
  | .ok payload =>
      let out := st.add_item payload.name
      ({ status_code := 201
         headers := []
         body := .obj [("item", itemJson out.1), ("request_id", .str rid)] },
       out.2)

/-- Mirrors the `GET /health` handler. -/
def GET_health (rid : String) : Response :=
  { status_code := 200
    headers := []
    body := .obj [("status", .str "ok"), ("request_id", .str rid)] }

/-- Lower-case hexadecimal digit for `n % 16` (the digits of Python's hex
encodings such as `uuid.uuid4().hex` and `\uXXXX` escapes). -/
def hexChar (n : Nat) : Char :=
  if n % 16 < 10 then Char.ofNat (48 + n % 16) else Char.ofNat (87 + n % 16)

/-- Decimal rendering of a natural number, digit by digit; mirrors
Python's `str()` on a non-negative int (fuel argument bounds recursion). -/
def natStrAux : Nat → Nat → List Char
  | 0, _ => []
  | f + 1, n =>
    if n < 10 then [hexChar n]
    else natStrAux f (n / 10) ++ [hexChar (n % 10)]

/-- Mirrors Python `str(n)` for a non-negative integer. -/
def natStr (n : Nat) : String := ⟨natStrAux (n + 1) n⟩

/-- Mirrors `uuid.uuid4().hex`: the hex encoding of a 128-bit value as 32
lower-case hex digits, most significant first.  The randomness is the
explicit parameter `r`. -/
def uuid4_hex (r : Nat) : String :=
  ⟨((List.range 32).reverse.map fun i => hexChar (r % 2 ^ 128 / 16 ^ i))⟩

/-- Inbound HTTP request as the middleware observes it: header list (names
in original case), method, and `request.url.path`. -/
structure Request where
  headers : List (String × String)
  method : String
  path : String

/-- ASCII lower-casing of one character, as Starlette's header handling
does via `bytes.lower()` (header names are ASCII). -/
def lowerChar (c : Char) : Char :=
  if 'A' ≤ c ∧ c ≤ 'Z' then Char.ofNat (c.toNat + 32) else c

/-- ASCII lower-casing of a header name. -/
def lowerStr (s : String) : String := ⟨s.data.map lowerChar⟩

/-- Mirrors Starlette's case-insensitive `request.headers.get(key)`: the
value of the first header whose name matches `key` up to ASCII case. -/
def headerGet (hs : List (String × String)) (key : String) : Option String :=
  (hs.find? fun p => lowerStr p.1 = lowerStr key).map (·.2)

/-- Mirrors `_request_id`: `request.headers.get("x-request-id") or
uuid.uuid4().hex` — the header value when present and non-empty (Python
`or` treats the empty string as falsy), else a fresh uuid hex. -/
def _request_id (req : Request) (r : Nat) : String :=
  match headerGet req.headers "x-request-id" with
  | some v => if v = "" then uuid4_hex r else v
  | none => uuid4_hex r

/-- Metric label sets `(method, path, status)` as used by `REQUEST_COUNT`
and `REQUEST_LATENCY` (status already stringified). -/
abbrev Labels := String × String × String

/-- The process-wide Prometheus state the app touches: the
`http_requests_total` counter per label set, and the latency observations
fed to the `http_request_latency_seconds` histogram per label set
(the histogram aggregates its observations; recording the observation
sequence retains that information). -/
structure MetricsState where
  counts : Labels → Nat
  observations : Labels → List ℚ

/-- Fresh registry at process start: no counts, no observations. -/
def MetricsState.init : MetricsState := ⟨fun _ => 0, fun _ => []⟩

/-- Mirrors `REQUEST_COUNT.labels(**labels).inc()`. -/
def MetricsState.incCount (m : MetricsState) (l : Labels) : MetricsState :=
  { m with counts := fun x => if x = l then m.counts x + 1 else m.counts x }

/-- Mirrors `REQUEST_LATENCY.labels(**labels).observe(latency)`. -/
def MetricsState.observe (m : MetricsState) (l : Labels) (v : ℚ) : MetricsState :=
  { m with observations := fun x =>
      if x = l then m.observations x ++ [v] else m.observations x }

/-- Mirrors Starlette `MutableHeaders.__setitem__`: drop every existing
header whose name matches case-insensitively, append the new pair. -/
def setHeader (hs : List (String × String)) (k v : String) :
    List (String × String) :=
  (hs.filter fun p => lowerStr p.1 ≠ lowerStr k) ++ [(k, v)]

/-- Round half to even, Python's rounding mode for `round`. -/
def roundHalfEven (q : ℚ) : ℤ :=
  if q - ⌊q⌋ < 1 / 2 then ⌊q⌋
  else if 1 / 2 < q - ⌊q⌋ then ⌊q⌋ + 1
  else if ⌊q⌋ % 2 = 0 then ⌊q⌋ else ⌊q⌋ + 1

/-- Mirrors Python `round(x, nd)` on the exact (rational) value. -/
def pyRound (nd : Nat) (x : ℚ) : ℚ :=
  (roundHalfEven (x * 10 ^ nd) : ℚ) / 10 ^ nd

/-- The log dict built in `RequestContextMiddleware.dispatch`, with
exactly its five keys in insertion order. -/
structure LogRecord where
  request_id : String
  method : String
  path : String
  status : Nat
  latency_ms : ℚ

/-- One `\uXXXX` escape unit: backslash, `u`, four hex digits of `n`. -/
def uHex (n : Nat) : List Char :=
  ['\\', 'u', hexChar (n / 4096), hexChar (n / 256), hexChar (n / 16), hexChar n]

/-- Escape of one character inside a JSON string, following
`json.dumps` with its default `ensure_ascii=True` (shorthand escapes for
the common control characters, `\uXXXX` for other control and all
non-ASCII characters, surrogate pairs beyond the BMP). -/
def escChar (c : Char) : List Char :=
  if c = '"' then ['\\', '"']
  else if c = '\\' then ['\\', '\\']
  else if c = '\n' then ['\\', 'n']
  else if c = '\r' then ['\\', 'r']
  else if c = '\t' then ['\\', 't']
  else if c = '\x08' then ['\\', 'b']
  else if c = '\x0c' then ['\\', 'f']
  else if c.toNat < 32 ∨ 126 < c.toNat then
    if c.toNat < 65536 then uHex c.toNat
    else uHex (55296 + (c.toNat - 65536) / 1024) ++
         uHex (56320 + (c.toNat - 65536) % 1024)
  else [c]

/-- JSON string literal for `s`: quotes around the escaped characters. -/
def jsonStr (s : String) : String :=
  "\"" ++ ⟨(s.data.map escChar).flatten⟩ ++ "\""

/-- Keep `ds` without its trailing `'0'` digits, but never empty. -/
def stripZeros (ds : List Char) : List Char :=
  let r := (ds.reverse.dropWhile (· = '0')).reverse
  if r = [] then ['0'] else r

/-- Rendering of `round(latency * 1000, 3)` the way `json.dumps` prints the
resulting float: integer part, a dot, then 1–3 fractional digits with
trailing zeros removed (a whole number keeps a single `0`).  Exact for the
multiples of 1/1000 that `pyRound 3` produces. -/
def floatRepr3 (q : ℚ) : String :=
  let a : ℚ := if q < 0 then -q else q
  let k : Nat := (⌊a * 1000⌋).toNat
  (if q < 0 then "-" else "") ++ natStr (k / 1000) ++ "." ++
    ⟨stripZeros [hexChar (k / 100 % 10), hexChar (k / 10 % 10), hexChar (k % 10)]⟩

/-- Mirrors `json.dumps(log)` on the five-field log dict: keys in dict
insertion order, `", "` and `": "` separators, strings escaped, the status
as a bare integer and the latency as a float literal. -/
def jsonDumpsLog (r : LogRecord) : String :=
  "\x7b" ++ jsonStr "request_id" ++ ": " ++ jsonStr r.request_id ++ ", " ++
    jsonStr "method" ++ ": " ++ jsonStr r.method ++ ", " ++
    jsonStr "path" ++ ": " ++ jsonStr r.path ++ ", " ++
    jsonStr "status" ++ ": " ++ natStr r.status ++ ", " ++
    jsonStr "latency_ms" ++ ": " ++ floatRepr3 r.latency_ms ++ "\x7d"

/-- Mirrors `RequestContextMiddleware.dispatch`.  State is explicit: the
metrics registry and the list of log lines already emitted.  `r` is the
uuid randomness, `latency` the monotonic-clock elapsed time in seconds,
and `outcome` the result of `await call_next(request)` — either the
downstream response or the exception it re-raises.  On an exception the
remaining statements of `dispatch` never run (there is no `try` around
`call_next`), so the state comes back untouched and the error propagates;
on a response the counter is bumped, the latency observed, the
`x-request-id` header stamped and one JSON log line appended. -/
def dispatch (req : Request) (r : Nat) (latency : ℚ)
    (outcome : Except String Response) (m : MetricsState)
    (logs : List String) :
    Except String Response × MetricsState × List String :=
  let request_id := _request_id req r
  match outcome with
  | .error e => (.error e, m, logs)
  | .ok response =>
      let labels : Labels := (req.method, req.path, natStr response.status_code)
      let m2 := (m.incCount labels).observe labels latency
      let response2 := { response with
        headers := setHeader response.headers "x-request-id" request_id }
      let logLine := jsonDumpsLog
        { request_id := request_id
          method := req.method
          path := req.path
          status := response.status_code
          latency_ms := pyRound 3 (latency * 1000) }
      (.ok response2, m2, logs ++ [logLine])

/-- The Item Store invariant of the specification: ids strictly increase
along insertion order (hence are unique) and stay below the counter. -/
def StoreInv (s : InMemoryStore) : Prop :=
  s._items.Pairwise (fun a b => a.id < b.id) ∧
  ∀ it ∈ s._items, it.id < s._next_id

/-- Run a sequence of `add_item` calls (one successful `POST /items` per
name) against a store, keeping only the final store. -/
def postNames (names : List String) (st : InMemoryStore) : InMemoryStore :=
  names.foldl (fun s n => (s.add_item n).2) st

/-- The items a run of `add_item` calls produces when the counter starts
at `k`: the names in order, ids consecutive from `k`. -/
def expectedItems : List String → Nat → List ItemOut
  | [], _ => []
  | n :: ns, k => { name := n, id := k } :: expectedItems ns (k + 1)

theorem postNames_cons (n : String) (ns : List String) (st : InMemoryStore) :
    postNames (n :: ns) st = postNames ns (st.add_item n).2 := rfl

theorem storeInv_init : StoreInv InMemoryStore.init := by
  constructor
  · exact List.Pairwise.nil
  · intro it h
    simp [InMemoryStore.init] at h

theorem storeInv_add (s : InMemoryStore) (n : String) (h : StoreInv s) :
    StoreInv (s.add_item n).2 := by
  obtain ⟨hp, hlt⟩ := h
  constructor
  · show (s._items ++ [({ name := n, id := s._next_id } : ItemOut)]).Pairwise _
    rw [List.pairwise_append]
    refine ⟨hp, List.pairwise_singleton _ _, ?_⟩
    intro a ha b hb
    rw [List.mem_singleton] at hb
    subst hb
    exact hlt a ha
  · intro it hit
    rcases List.mem_append.1 hit with h1 | h1
    · exact Nat.lt_succ_of_lt (hlt it h1)
    · rw [List.mem_singleton] at h1
      subst h1
      exact Nat.lt_succ_self _

theorem expectedItems_length (names : List String) :
    ∀ k, (expectedItems names k).length = names.length := by
  induction names with
  | nil => intro k; rfl
  | cons n ns ih => intro k; simpa [expectedItems] using ih (k + 1)

theorem expectedItems_map_name (names : List String) :
    ∀ k, (expectedItems names k).map (fun it => it.name) = names := by
  induction names with
  | nil => intro k; rfl
  | cons n ns ih => intro k; simpa [expectedItems] using ih (k + 1)

theorem expectedItems_map_id (names : List String) :
    ∀ k, (expectedItems names k).map (fun it => it.id) =
      (List.range names.length).map (fun i => k + i) := by
  induction names with
  | nil => intro k; rfl
  | cons n ns ih =>
    intro k
    simp only [expectedItems, List.map_cons, List.length_cons,
      List.range_succ_eq_map, List.map_map, ih (k + 1)]
    refine List.cons_eq_cons.mpr ⟨by omega, ?_⟩
    exact List.map_congr_left fun i _ => by simp [Function.comp]; omega

theorem postNames_spec (names : List String) :
    ∀ st : InMemoryStore,
      (postNames names st)._items = st._items ++ expectedItems names st._next_id ∧
      (postNames names st)._next_id = st._next_id + names.length := by
  induction names with
  | nil => intro st; simp [postNames, expectedItems]
  | cons n ns ih =>
    intro st
    rw [postNames_cons]
    obtain ⟨h1, h2⟩ := ih (st.add_item n).2
    constructor
    · rw [h1]
      simp [InMemoryStore.add_item, expectedItems]
    · rw [h2]
      simp [InMemoryStore.add_item]
      omega

/-- C1 (amended): a request body with `name` missing fails validation with
422, field-level detail for `body.name`, and an unchanged store; but a
present empty-string `name` is NOT rejected (the pydantic field `name : str`
has no length constraint): it yields 201 and the item is appended. -/
theorem claim_C1 (rid : String) (st : InMemoryStore) :
    (POST_items none rid st).1.status_code = 422 ∧
    (POST_items none rid st).1.body =
      .obj [("detail", .arr [.obj [("type", .str "missing"),
        ("loc", .arr [.str "body", .str "name"]),
        ("msg", .str "Field required")]])] ∧
    (POST_items none rid st).2 = st ∧
    (∀ s, (POST_items (some s) rid st).1.status_code = 201 ∧
      (POST_items (some s) rid st).2._items =
        st._items ++ [{ name := s, id := st._next_id }]) :=
  ⟨rfl, rfl, rfl, fun _ => ⟨rfl, rfl⟩⟩

/-- C1 counterexample: posting the empty-string name to the fresh store
returns 201 (not 422) and appends an item, refuting the claim that an
empty `name` yields 422 with the store unchanged. -/
theorem claim_C1_counterexample :
    (POST_items (some "") "r" InMemoryStore.init).1.status_code = 201 ∧
    (POST_items (some "") "r" InMemoryStore.init).2._items =
      [{ name := "", id := 1 }] :=
  ⟨rfl, rfl⟩

/-- C4: the store invariant (ids strictly increasing along insertion order,
all below the counter) holds initially and is preserved by `add_item`; the
first assigned id is 1, items are only ever appended (never removed or
mutated), the counter strictly increases, and ids stay unique. -/
theorem claim_C4 :
    StoreInv InMemoryStore.init ∧
    (∀ name, (InMemoryStore.init.add_item name).1.id = 1) ∧
    (∀ s : InMemoryStore, ∀ name, StoreInv s →
      StoreInv (s.add_item name).2 ∧
      (s.add_item name).2._items = s._items ++ [(s.add_item name).1] ∧
      (∀ it ∈ s._items, it.id < (s.add_item name).1.id) ∧
      s._next_id < (s.add_item name).2._next_id ∧
      ((s.add_item name).2._items.map fun it => it.id).Nodup) := by
  refine ⟨storeInv_init, fun _ => rfl, fun s name h => ?_⟩
  have h2 := storeInv_add s name h
  refine ⟨h2, rfl, fun it hit => h.2 it hit, Nat.lt_succ_self _, ?_⟩
  have hp := h2.1
  simp only [List.Nodup, List.pairwise_map]
  exact hp.imp fun hab => Nat.ne_of_lt hab

/-- C4 witness: instantiating the preservation part at the fresh store and
the name from the repository's test. -/
theorem claim_C4_witness :
    StoreInv (InMemoryStore.init.add_item "widget").2 ∧
    (InMemoryStore.init.add_item "widget").2._items =
      InMemoryStore.init._items ++ [(InMemoryStore.init.add_item "widget").1] :=
  ⟨(claim_C4.2.2 InMemoryStore.init "widget" storeInv_init).1,
   (claim_C4.2.2 InMemoryStore.init "widget" storeInv_init).2.1⟩

/-- C5: posting a non-empty name answers 201, echoes the name, assigns an
id strictly above every previously assigned id, and a subsequent
`GET /items` lists an item with that id and name. -/
theorem claim_C5 (st : InMemoryStore) (rid rid2 N : String)
    (hinv : StoreInv st) (hN : N ≠ "") :
    (POST_items (some N) rid st).1.status_code = 201 ∧
    (st.add_item N).1.name = N ∧
    (POST_items (some N) rid st).1.body =
      .obj [("item", itemJson (st.add_item N).1), ("request_id", .str rid)] ∧
    (∀ it ∈ st._items, it.id < (st.add_item N).1.id) ∧
    (st.add_item N).1 ∈ (POST_items (some N) rid st).2.list_items ∧
    (GET_items rid2 (POST_items (some N) rid st).2).status_code = 200 ∧
    ∃ items,
      (GET_items rid2 (POST_items (some N) rid st).2).body =
        .obj [("items", .arr items), ("count", .int items.length),
              ("request_id", .str rid2)] ∧
      itemJson (st.add_item N).1 ∈ items := by
  refine ⟨rfl, rfl, rfl, fun it hit => hinv.2 it hit,
    List.mem_append_right _ (List.mem_singleton_self _), rfl,
    ((st.add_item N).2._items.map itemJson), rfl,
    List.mem_map_of_mem _ (List.mem_append_right _ (List.mem_singleton_self _))⟩

/-- C5 witness: the first request of the repository's test
(`POST /items {"name": "widget"}` on the fresh store). -/
theorem claim_C5_witness :
    (POST_items (some "widget") "r1" InMemoryStore.init).1.status_code = 201 ∧
    (InMemoryStore.init.add_item "widget").1.name = "widget" :=
  ⟨(claim_C5 InMemoryStore.init "r1" "r2" "widget" storeInv_init (by decide)).1,
   (claim_C5 InMemoryStore.init "r1" "r2" "widget" storeInv_init (by decide)).2.1⟩

/-- C6: after any sequence of successful creates starting from the empty
store, `GET /items` answers 200 with `count` equal to the number of
creates and the items (their names) in creation order; on the empty store
it answers the empty list with count 0; and listing never mutates. -/
theorem claim_C6 (names : List String) (rid : String) :
    (GET_items rid (postNames names InMemoryStore.init)).status_code = 200 ∧
    (GET_items rid (postNames names InMemoryStore.init)).body =
      .obj [("items", .arr ((postNames names InMemoryStore.init)._items.map itemJson)),
            ("count", .int names.length), ("request_id", .str rid)] ∧
    ((postNames names InMemoryStore.init)._items.map fun it => it.name) = names ∧
    (GET_items rid InMemoryStore.init).body =
      .obj [("items", .arr []), ("count", .int 0), ("request_id", .str rid)] ∧
    (∀ st : InMemoryStore, st.list_items = st._items) := by
  obtain ⟨h1, _⟩ := postNames_spec names InMemoryStore.init
  have hlen : (postNames names InMemoryStore.init)._items.length = names.length := by
    rw [h1]
    simp [InMemoryStore.init, expectedItems_length]
  refine ⟨rfl, ?_, ?_, rfl, fun _ => rfl⟩
  · simp only [GET_items, InMemoryStore.list_items, List.length_map, hlen]
  · rw [h1]
    simp [InMemoryStore.init, expectedItems_map_name]

/-- C10: a store built by any run of creates from the fresh store keeps
`_next_id` equal to the item count plus one, and the assigned ids are
exactly the consecutive integers 1..N in order (the k-th item, 0-based,
has id k+1). -/
theorem claim_C10 (names : List String) :
    (postNames names InMemoryStore.init)._next_id =
      (postNames names InMemoryStore.init)._items.length + 1 ∧
    ((postNames names InMemoryStore.init)._items.map fun it => it.id) =
      (List.range names.length).map (fun k => k + 1) ∧
    (∀ k, k < names.length →
      ((postNames names InMemoryStore.init)._items.map fun it => it.id)[k]? =
        some (k + 1)) := by
  obtain ⟨h1, h2⟩ := postNames_spec names InMemoryStore.init
  have hmap : ((postNames names InMemoryStore.init)._items.map fun it => it.id) =
      (List.range names.length).map (fun k => k + 1) := by
    rw [h1]
    simp only [InMemoryStore.init, List.nil_append]
    rw [expectedItems_map_id names 1]
    exact List.map_congr_left fun i _ => by omega
  have hlen : (postNames names InMemoryStore.init)._items.length = names.length := by
    rw [h1]
    simp [InMemoryStore.init, expectedItems_length]
  refine ⟨by rw [h2, hlen]; simp [InMemoryStore.init]; omega, hmap, fun k hk => ?_⟩
  rw [hmap, List.getElem?_map, List.getElem?_range hk]
  rfl

/-- C10 witness: two creates give ids 1 and 2; the item at index 1 has
id 2. -/
theorem claim_C10_witness :
    ((postNames ["widget", "gadget"] InMemoryStore.init)._items.map
      fun it => it.id)[1]? = some 2 :=
  (claim_C10 ["widget", "gadget"]).2.2 1 (by decide)

theorem hexChar_ne_nl (n : Nat) : hexChar n ≠ '\n' := by
  have hx : hexChar n = hexChar (n % 16) := by
    unfold hexChar
    rw [Nat.mod_mod_of_dvd n (dvd_refl 16)]
  have hall : ∀ m, m < 16 → hexChar m ≠ '\n' := by decide
  rw [hx]
  exact hall (n % 16) (Nat.mod_lt _ (by norm_num))

theorem uHex_ne_nl (n : Nat) : ∀ x ∈ uHex n, x ≠ '\n' := by
  intro x hx
  simp only [uHex, List.mem_cons, List.not_mem_nil, or_false] at hx
  rcases hx with rfl | rfl | rfl | rfl | rfl | rfl
  · decide
  · decide
  · exact hexChar_ne_nl _
  · exact hexChar_ne_nl _
  · exact hexChar_ne_nl _
  · exact hexChar_ne_nl _

theorem escChar_ne_nl (c : Char) : ∀ x ∈ escChar c, x ≠ '\n' := by
  intro x hx
  unfold escChar at hx
  by_cases h1 : c = '"'
  · rw [if_pos h1] at hx
    intro hEq; subst hEq; exact absurd hx (by decide)
  rw [if_neg h1] at hx
  by_cases h2 : c = '\\'
  · rw [if_pos h2] at hx
    intro hEq; subst hEq; exact absurd hx (by decide)
  rw [if_neg h2] at hx
  by_cases h3 : c = '\n'
  · rw [if_pos h3] at hx
    intro hEq; subst hEq; exact absurd hx (by decide)
  rw [if_neg h3] at hx
  by_cases h4 : c = '\r'
  · rw [if_pos h4] at hx
    intro hEq; subst hEq; exact absurd hx (by decide)
  rw [if_neg h4] at hx
  by_cases h5 : c = '\t'
  · rw [if_pos h5] at hx
    intro hEq; subst hEq; exact absurd hx (by decide)
  rw [if_neg h5] at hx
  by_cases h6 : c = '\x08'
  · rw [if_pos h6] at hx
    intro hEq; subst hEq; exact absurd hx (by decide)
  rw [if_neg h6] at hx
  by_cases h7 : c = '\x0c'
  · rw [if_pos h7] at hx
    intro hEq; subst hEq; exact absurd hx (by decide)
  rw [if_neg h7] at hx
  by_cases h8 : c.toNat < 32 ∨ 126 < c.toNat
  · rw [if_pos h8] at hx
    by_cases h9 : c.toNat < 65536
    · rw [if_pos h9] at hx
      exact uHex_ne_nl _ x hx
    · rw [if_neg h9] at hx
      rcases List.mem_append.1 hx with h | h
      · exact uHex_ne_nl _ x h
      · exact uHex_ne_nl _ x h
  · rw [if_neg h8] at hx
    rw [List.mem_singleton] at hx
    subst hx
    exact h3

theorem natStrAux_ne_nl (f : Nat) : ∀ n, ∀ x ∈ natStrAux f n, x ≠ '\n' := by
  induction f with
  | zero => intro n x hx; simp [natStrAux] at hx
  | succ f ih =>
    intro n x hx
    unfold natStrAux at hx
    by_cases h : n < 10
    · rw [if_pos h, List.mem_singleton] at hx
      subst hx
      exact hexChar_ne_nl _
    · rw [if_neg h] at hx
      rcases List.mem_append.1 hx with h1 | h1
      · exact ih _ x h1
      · rw [List.mem_singleton] at h1
        subst h1
        exact hexChar_ne_nl _

theorem natStr_ne_nl (n : Nat) : ∀ x ∈ (natStr n).data, x ≠ '\n' :=
  natStrAux_ne_nl (n + 1) n

theorem jsonStr_ne_nl (s : String) : ∀ x ∈ (jsonStr s).data, x ≠ '\n' := by
  intro x hx
  unfold jsonStr at hx
  simp only [String.data_append, List.mem_append] at hx
  rcases hx with (h | h) | h
  · intro hEq; subst hEq; exact absurd h (by decide)
  · rcases List.mem_flatten.1 h with ⟨l, hl, hxl⟩
    rcases List.mem_map.1 hl with ⟨c, _, rfl⟩
    exact escChar_ne_nl c x hxl
  · intro hEq; subst hEq; exact absurd h (by decide)

theorem stripZeros_cases (ds : List Char) :
    ∀ x ∈ stripZeros ds, x ∈ ds ∨ x = '0' := by
  intro x hx
  unfold stripZeros at hx
  by_cases h : (ds.reverse.dropWhile (· = '0')).reverse = []
  · rw [if_pos h, List.mem_singleton] at hx
    exact Or.inr hx
  · rw [if_neg h, List.mem_reverse] at hx
    have h2 := (List.dropWhile_sublist (fun c => c = '0')).subset hx
    rw [List.mem_reverse] at h2
    exact Or.inl h2

theorem floatRepr3_ne_nl (q : ℚ) : ∀ x ∈ (floatRepr3 q).data, x ≠ '\n' := by
  intro x hx
  unfold floatRepr3 at hx
  simp only [String.data_append, List.mem_append] at hx
  rcases hx with ((h | h) | h) | h
  · by_cases hq : q < 0
    · rw [if_pos hq] at h
      intro hEq; subst hEq; exact absurd h (by decide)
    · rw [if_neg hq] at h
      intro hEq; subst hEq; exact absurd h (by decide)
  · exact natStr_ne_nl _ x h
  · intro hEq; subst hEq; exact absurd h (by decide)
  · rcases stripZeros_cases _ x h with h1 | h1
    · simp only [List.mem_cons, List.not_mem_nil, or_false] at h1
      rcases h1 with rfl | rfl | rfl
      · exact hexChar_ne_nl _
      · exact hexChar_ne_nl _
      · exact hexChar_ne_nl _
    · subst h1; decide

theorem append_ne_nl {s t : String}
    (hs : ∀ x ∈ s.data, x ≠ '\n') (ht : ∀ x ∈ t.data, x ≠ '\n') :
    ∀ x ∈ (s ++ t).data, x ≠ '\n' := by
  intro x hx
  rw [String.data_append] at hx
  rcases List.mem_append.1 hx with h | h
  · exact hs x h
  · exact ht x h

theorem jsonDumpsLog_ne_nl (lr : LogRecord) :
    ∀ x ∈ (jsonDumpsLog lr).data, x ≠ '\n' := by
  have l1 : ∀ x ∈ ("\x7b" : String).data, x ≠ '\n' := by decide
  have lcolon : ∀ x ∈ (": " : String).data, x ≠ '\n' := by decide
  have lcomma : ∀ x ∈ (", " : String).data, x ≠ '\n' := by decide
  have lrb : ∀ x ∈ ("\x7d" : String).data, x ≠ '\n' := by decide
  exact (append_ne_nl (append_ne_nl (append_ne_nl (append_ne_nl (append_ne_nl (append_ne_nl (append_ne_nl (append_ne_nl (append_ne_nl (append_ne_nl (append_ne_nl (append_ne_nl (append_ne_nl (append_ne_nl (append_ne_nl (append_ne_nl (append_ne_nl (append_ne_nl (append_ne_nl (append_ne_nl l1 (jsonStr_ne_nl _)) lcolon) (jsonStr_ne_nl _)) lcomma) (jsonStr_ne_nl _)) lcolon) (jsonStr_ne_nl _)) lcomma) (jsonStr_ne_nl _)) lcolon) (jsonStr_ne_nl _)) lcomma) (jsonStr_ne_nl _)) lcolon) (natStr_ne_nl _)) lcomma) (jsonStr_ne_nl _)) lcolon) (floatRepr3_ne_nl _)) lrb)

theorem headerGet_setHeader (hs : List (String × String)) (k v : String) :
    headerGet (setHeader hs k v) k = some v := by
  unfold headerGet setHeader
  rw [List.find?_append]
  have h1 : (hs.filter fun p => lowerStr p.1 ≠ lowerStr k).find?
      (fun p => lowerStr p.1 = lowerStr k) = none := by
    rw [List.find?_eq_none]
    intro x hx
    have h2 := (List.mem_filter.1 hx).2
    simp only [decide_eq_true_eq] at h2 ⊢
    exact h2
  rw [h1]
  simp [List.find?]

theorem filter_setHeader (hs : List (String × String)) (k v : String) :
    ((setHeader hs k v).filter fun p => lowerStr p.1 ≠ lowerStr k) =
      hs.filter fun p => lowerStr p.1 ≠ lowerStr k := by
  unfold setHeader
  rw [List.filter_append, List.filter_filter]
  simp

theorem uuid4_hex_length (r : Nat) : (uuid4_hex r).length = 32 := by
  simp [uuid4_hex, String.length]

theorem uuid4_hex_ne_empty (r : Nat) : uuid4_hex r ≠ "" := by
  intro h
  have h2 := congrArg String.length h
  rw [uuid4_hex_length] at h2
  simp at h2

/-- C2 (amended): when the downstream handler raises, `dispatch` performs
no observation at all — the metrics registry, the log stream and the
error itself come back exactly as they went in (the error is propagated,
never swallowed); there is no metrics/logging for the failed request,
because the exception from `call_next` skips the rest of `dispatch`. -/
theorem claim_C2 (req : Request) (r : Nat) (latency : ℚ) (e : String)
    (m : MetricsState) (logs : List String) :
    dispatch req r latency (.error e) m logs = (.error e, m, logs) := rfl

/-- C2 counterexample: a handler error on the fresh registry leaves the
500-labelled counter at 0 and emits no log line, refuting the claim that
the middleware still counts the request and logs with status 500 before
propagating. -/
theorem claim_C2_counterexample :
    (dispatch ⟨[], "GET", "/boom"⟩ 0 1 (.error "boom")
      MetricsState.init []).2.1.counts ("GET", "/boom", "500") = 0 ∧
    (dispatch ⟨[], "GET", "/boom"⟩ 0 1 (.error "boom")
      MetricsState.init []).2.2 = [] ∧
    (dispatch ⟨[], "GET", "/boom"⟩ 0 1 (.error "boom")
      MetricsState.init []).1 = .error "boom" :=
  ⟨rfl, rfl, rfl⟩

/-- C3: the resolved request id is never empty; a non-empty inbound
`x-request-id` header (matched case-insensitively) is returned verbatim;
with no such header the id is the freshly generated 32-hex-digit uuid;
and the response the middleware returns carries `x-request-id` equal to
the resolved id. -/
theorem claim_C3 (req : Request) (r : Nat) :
    _request_id req r ≠ "" ∧
    (∀ v, headerGet req.headers "x-request-id" = some v → v ≠ "" →
      _request_id req r = v) ∧
    (headerGet req.headers "x-request-id" = none →
      _request_id req r = uuid4_hex r) ∧
    (uuid4_hex r).length = 32 ∧
    (∀ (latency : ℚ) (resp : Response) (m : MetricsState) (logs : List String),
      ∃ resp2, (dispatch req r latency (.ok resp) m logs).1 = .ok resp2 ∧
        headerGet resp2.headers "x-request-id" = some (_request_id req r)) := by
  refine ⟨?_, ?_, ?_, uuid4_hex_length r, ?_⟩
  · cases hg : headerGet req.headers "x-request-id" with
    | none =>
      simp only [_request_id, hg]
      exact uuid4_hex_ne_empty r
    | some v =>
      by_cases hv : v = ""
      · simp only [_request_id, hg, if_pos hv]
        exact uuid4_hex_ne_empty r
      · simp only [_request_id, hg, if_neg hv]
        exact hv
  · intro v hv hne
    simp only [_request_id, hv, if_neg hne]
  · intro hn
    simp only [_request_id, hn]
  · intro latency resp m logs
    exact ⟨_, rfl, headerGet_setHeader _ _ _⟩

/-- C3 witness: a caller-supplied header, in different ASCII case, is
returned verbatim. -/
theorem claim_C3_witness :
    _request_id ⟨[("X-Request-Id", "abc")], "GET", "/items"⟩ 0 = "abc" :=
  (claim_C3 ⟨[("X-Request-Id", "abc")], "GET", "/items"⟩ 0).2.1 "abc"
    (by decide) (by decide)

/-- C7: a completed request bumps the counter of exactly its
(method, path, status) label set by one and appends exactly one latency
observation there, leaving every other label set untouched; and across
any outcome the counters never decrease. -/
theorem claim_C7 (req : Request) (r : Nat) (latency : ℚ)
    (resp : Response) (m : MetricsState) (logs : List String) :
    (∀ l, (dispatch req r latency (.ok resp) m logs).2.1.counts l =
      if l = (req.method, req.path, natStr resp.status_code) then m.counts l + 1
      else m.counts l) ∧
    (∀ l, (dispatch req r latency (.ok resp) m logs).2.1.observations l =
      if l = (req.method, req.path, natStr resp.status_code) then
        m.observations l ++ [latency]
      else m.observations l) ∧
    (∀ (outcome : Except String Response) l,
      m.counts l ≤ (dispatch req r latency outcome m logs).2.1.counts l) := by
  refine ⟨fun l => ?_, fun l => ?_, fun outcome l => ?_⟩
  · simp [dispatch, MetricsState.incCount, MetricsState.observe]
  · simp [dispatch, MetricsState.incCount, MetricsState.observe]
  · cases outcome with
    | error e => simp [dispatch]
    | ok resp2 =>
      simp only [dispatch, MetricsState.incCount, MetricsState.observe]
      split
      · exact Nat.le_succ _
      · exact Nat.le_refl _

/-- C8: the middleware returns the handler's response unchanged apart
from the `x-request-id` header: status, body and all other headers are
exactly the handler's, and the `x-request-id` header holds the resolved
request id. -/
theorem claim_C8 (req : Request) (r : Nat) (latency : ℚ)
    (resp : Response) (m : MetricsState) (logs : List String) :
    ∃ resp2, (dispatch req r latency (.ok resp) m logs).1 = .ok resp2 ∧
      resp2.status_code = resp.status_code ∧
      resp2.body = resp.body ∧
      (resp2.headers.filter fun p => lowerStr p.1 ≠ lowerStr "x-request-id") =
        (resp.headers.filter fun p => lowerStr p.1 ≠ lowerStr "x-request-id") ∧
      headerGet resp2.headers "x-request-id" = some (_request_id req r) :=
  ⟨_, rfl, rfl, rfl, filter_setHeader _ _ _, headerGet_setHeader _ _ _⟩

/-- C9: a completed request appends exactly one log line, the JSON
serialization of the five-field record (request id, method, path, the
response's status, the latency in milliseconds rounded half-to-even to 3
decimal places), computed after the response is known; and every
serialized log record is a single line (it contains no newline). -/
theorem claim_C9 (req : Request) (r : Nat) (latency : ℚ)
    (resp : Response) (m : MetricsState) (logs : List String) :
    (dispatch req r latency (.ok resp) m logs).2.2 =
      logs ++ [jsonDumpsLog ⟨_request_id req r, req.method, req.path,
        resp.status_code, pyRound 3 (latency * 1000)⟩] ∧
    (∀ lr : LogRecord, '\n' ∉ (jsonDumpsLog lr).data) :=
  ⟨rfl, fun lr h => jsonDumpsLog_ne_nl lr '\n' h rfl⟩
